import Mathlib

set_option maxRecDepth 100000

/-!
Shallow embedding of the reactive data/state layer of the portfolio frontend:
the API client (`src/frontend/src/lib/api/client.ts`), the projects store
(`src/frontend/src/lib/stores/projects.ts`), the skills store and its derived
views, the toast notification store (`src/frontend/src/lib/stores/toast.ts`),
the skill-level display helper of `SkillBadge.svelte`, and the contact-form
field validation of `ContactForm.svelte`.

JavaScript numbers that only ever hold integers in this code base are modelled
as `Int`; JavaScript strings as `String`; absent (`undefined`/missing) values
as `Option`.  Thrown exceptions at a suspension point are modelled with
`Except Unit`.  `Math.random()`-generated identifiers are modelled as explicit
input parameters, since the random source is external to the program.
-/

/-- Model of JavaScript `x || d` for an optional numeric `x`: the default is
applied when `x` is absent or falsy (the number `0` is falsy). -/
def jsNumOr (x : Option Int) (d : Int) : Int :=
  match x with
  | none => d
  | some v => if v = 0 then d else v

/-- Model of JavaScript `x || d` for an optional string `x`: the default is
applied when `x` is absent or falsy (the empty string is falsy). -/
def jsStrOr (x : Option String) (d : String) : String :=
  match x with
  | none => d
  | some s => if s = "" then d else s

/-- Structured error shape of `ApiResponse.error` in
`src/frontend/src/lib/api/client.ts`: `{ code, message, details? }`. -/
structure ApiError where
  code : String
  message : String
  details : Option (List String)
deriving DecidableEq, Repr

/-- The normalized result shape `ApiResponse<T>` of the API client:
`{ success: boolean, data?: T, error?: ApiError }`. -/
structure ApiResponse (T : Type) where
  success : Bool
  data : Option T
  error : Option ApiError
deriving DecidableEq, Repr

/-- Outcome of the `fetch` call (plus body parsing) inside `ApiClient.request`:
either `fetch` itself rejects (transport failure), or a response arrives with
an `ok` flag, a status, a status text, and a body whose JSON parse either
throws (`none`) or yields a value of the normalized shape (`some`). -/
inductive FetchOutcome (T : Type) where
  | fetchThrow : FetchOutcome T
  | response (ok : Bool) (status : Nat) (statusText : String)
      (body : Option (ApiResponse T)) : FetchOutcome T

/-- The error object built by `ApiClient.request` for a non-2xx response whose
body carries no structured error: `{ code: 'HTTP_ERROR', message: ... }`. -/
def httpErrorFor (status : Nat) (statusText : String) : ApiError :=
  { code := "HTTP_ERROR"
    message := "HTTP " ++ toString status ++ ": " ++ statusText
    details := none }

/-- The error object built by the `catch` branch of `ApiClient.request`. -/
def networkError : ApiError :=
  { code := "NETWORK_ERROR", message := "Failed to connect to server", details := none }

/-- Model of `ApiClient.request` in `src/frontend/src/lib/api/client.ts`.
The `try` block awaits `fetch` and `response.json()`; a throw from either is
caught and converted to the `NETWORK_ERROR` failure shape.  A non-ok response
returns `{ success: false, error: data.error || { code: 'HTTP_ERROR', ... } }`;
an ok response returns the parsed body unchanged.  The function is total: it
never throws to its caller. -/
def request (T : Type) (f : FetchOutcome T) : ApiResponse T :=
  match f with
  | .fetchThrow => { success := false, data := none, error := some networkError }
  | .response ok status statusText body =>
    match body with
    | none => { success := false, data := none, error := some networkError }
    | some data =>
      if ok then
        data
      else
        { success := false, data := none
          error := some (data.error.getD (httpErrorFor status statusText)) }

/-- The five level labels of `getSkillLevelDisplay` in `SkillBadge.svelte`. -/
def skillLevels : List String :=
  ["Débutant", "Intermédiaire", "Confirmé", "Expert", "Maître"]

/-- Model of JavaScript array indexing `l[i]` for an `Int` index: any negative
or out-of-range index yields `undefined` (`none`). -/
def jsIndex (l : List String) (i : Int) : Option String :=
  if i < 0 then none else l.get? i.toNat

/-- Model of `getSkillLevelDisplay` in `SkillBadge.svelte`:
`levels[level - 1] || 'Débutant'`. -/
def getSkillLevelDisplay (level : Int) : String :=
  jsStrOr (jsIndex skillLevels (level - 1)) "Débutant"

/-- The four toast types of `src/frontend/src/lib/stores/toast.ts`. -/
inductive ToastType where
  | success : ToastType
  | error : ToastType
  | warning : ToastType
  | info : ToastType
deriving DecidableEq, Repr

/-- A stored toast: `{ id, type, title, message?, duration, dismissible }`.
After `add` applies its defaults, `duration` and `dismissible` are always
present, so they are not optional here. -/
structure Toast where
  id : String
  type : ToastType
  title : String
  message : Option String
  duration : Int
  dismissible : Bool
deriving DecidableEq, Repr

/-- The `ToastOptions` argument of `toastStore.add`. -/
structure ToastOptions where
  type : Option ToastType
  title : String
  message : Option String
  duration : Option Int
  dismissible : Option Bool
deriving DecidableEq, Repr

/-- The toast object built inside `toastStore.add` from its options and the
`Math.random()`-generated identifier (the identifier is an explicit input
here): `type: options.type || 'info'`, `duration: options.duration || 5000`,
`dismissible: options.dismissible !== false`. -/
def mkToast (id : String) (options : ToastOptions) : Toast :=
  { id := id
    type := options.type.getD ToastType.info
    title := options.title
    message := options.message
    duration := jsNumOr options.duration 5000
    dismissible := options.dismissible ≠ some false }

/-- Model of `toastStore.add`: returns the generated id, the new queue (the
toast is appended at the end), and whether an auto-dismiss timer was scheduled
(the code schedules one exactly when `toast.duration > 0`). -/
def toastAdd (id : String) (options : ToastOptions) (ts : List Toast) :
    String × List Toast × Bool :=
  (id, ts ++ [mkToast id options], decide ((mkToast id options).duration > 0))

/-- Model of `toastStore.dismiss`: removes every toast whose id matches. -/
def toastDismiss (id : String) (ts : List Toast) : List Toast :=
  ts.filter (fun t => t.id != id)

/-- Model of the `toastStore.error` convenience wrapper: fixes `type: 'error'`
and raises the default duration to 8000 (`duration: duration || 8000`). -/
def toastError (id title : String) (message : Option String)
    (duration : Option Int) (ts : List Toast) : String × List Toast × Bool :=
  toastAdd id
    { type := some ToastType.error, title := title, message := message
      duration := some (jsNumOr duration 8000), dismissible := none } ts

/-- Model of the `toastStore.success` convenience wrapper: fixes
`type: 'success'` and passes `duration` through unchanged. -/
def toastSuccess (id title : String) (message : Option String)
    (duration : Option Int) (ts : List Toast) : String × List Toast × Bool :=
  toastAdd id
    { type := some ToastType.success, title := title, message := message
      duration := duration, dismissible := none } ts

/-- Model of JavaScript `String.prototype.trim` on the character level: strip
whitespace from both ends. -/
def jsTrim (s : String) : String :=
  ⟨((s.data.dropWhile Char.isWhitespace).reverse.dropWhile Char.isWhitespace).reverse⟩

/-- A character matched by the regex class `[^\s@]` of the email pattern in
`ContactForm.svelte`: neither whitespace nor the at sign. -/
def isEmailChar (c : Char) : Bool :=
  !c.isWhitespace && c != '@'

/-- Model of the test of the email regex of `ContactForm.svelte`,
`^[^\s@]+@[^\s@]+\.[^\s@]+$`: the string must decompose as
`A ++ "@" ++ B ++ "." ++ C` with `A`, `B`, `C` nonempty and free of whitespace
and at signs (`B` and `C` may themselves contain further dots).  Equivalently:
the string contains exactly one at sign, the (nonempty) part before it and the
part after it consist of `[^\s@]` characters, and the part after it contains a
dot that is neither its first nor its last character. -/
def emailPatternTest (s : String) : Bool :=
  let l := s.data
  let a := l.takeWhile (fun c => c != '@')
  let rest := (l.dropWhile (fun c => c != '@')).drop 1
  l.count '@' == 1 && !a.isEmpty && a.all isEmailChar && rest.all isEmailChar
    && (rest.drop 1).dropLast.contains '.'

/-- The four fields of the contact form. -/
inductive ContactField where
  | name : ContactField
  | email : ContactField
  | subject : ContactField
  | message : ContactField
deriving DecidableEq, Repr

/-- Model of `validateField` in `ContactForm.svelte`: returns the error string
for an invalid value and `none` for a valid one.  JavaScript `!value.trim()`
is the emptiness test on the trimmed value; `.length` on the ASCII strings of
interest is the character count. -/
def validateField (field : ContactField) (value : String) : Option String :=
  match field with
  | .name =>
    if jsTrim value = "" then some "Le nom est requis"
    else if (jsTrim value).length < 2 then
      some "Le nom doit contenir au moins 2 caractères"
    else none
  | .email =>
    if jsTrim value = "" then some "L\x27email est requis"
    else if !emailPatternTest value then some "Format d\x27email invalide"
    else none
  | .subject =>
    if jsTrim value = "" then some "Le sujet est requis"
    else if (jsTrim value).length < 5 then
      some "Le sujet doit contenir au moins 5 caractères"
    else none
  | .message =>
    if jsTrim value = "" then some "Le message est requis"
    else if (jsTrim value).length < 10 then
      some "Le message doit contenir au moins 10 caractères"
    else if (jsTrim value).length > 1000 then
      some "Le message ne peut pas dépasser 1000 caractères"
    else none

/-- The `Project` entity of `src/frontend/src/lib/types/index.ts`. -/
structure Project where
  id : Int
  title : String
  description : String
  long_description : Option String
  technologies : List String
  github_url : Option String
  demo_url : Option String
  image_url : Option String
  category : String
  featured : Bool
  created_at : String
deriving DecidableEq, Repr

/-- The `LoadingState` value object: `{ isLoading, error }`. -/
structure LoadingState where
  isLoading : Bool
  error : Option ApiError
deriving DecidableEq, Repr

/-- The state touched by the projects store actions: the `projects` writable,
the `projectsLoading` writable, and the shared toast queue. -/
structure ProjectsState where
  projects : List Project
  loading : LoadingState
  toasts : List Toast
deriving DecidableEq, Repr

/-- Model of `projectsStore.loadProjects` in
`src/frontend/src/lib/stores/projects.ts`, as a state transformer over the
outcome of the awaited `apiClient.getProjects` call (`Except.error` models a
thrown transport error).  The action first sets
`isLoading: true, error: null`; on `response.success && response.data` it
replaces the collection and clears `isLoading`; otherwise it records the
server error (or an `UNKNOWN_ERROR` fallback) and queues an error toast; a
thrown error records `NETWORK_ERROR` and queues an error toast.  `idGen` is
the identifier the toast store draws for the queued toast, if any. -/
def loadProjects (idGen : String) (outcome : Except Unit (ApiResponse (List Project)))
    (s : ProjectsState) : ProjectsState :=
  let s1 : ProjectsState := { s with loading := { isLoading := true, error := none } }
  match outcome with
  | .ok response =>
    match response.success, response.data with
    | true, some l =>
      { s1 with projects := l, loading := { s1.loading with isLoading := false } }
    | _, _ =>
      let errorMsg := jsStrOr (response.error.map ApiError.message)
        "Erreur lors du chargement des projets"
      { s1 with
        loading := { s1.loading with
          isLoading := false,
          error := some (response.error.getD
            ⟨"UNKNOWN_ERROR", errorMsg, none⟩) },
        toasts := (toastError idGen "Erreur de chargement" (some errorMsg)
          none s1.toasts).2.1 }
  | .error _ =>
      let errorMsg := "Impossible de se connecter au serveur"
      { s1 with
        loading := { s1.loading with
          isLoading := false,
          error := some ⟨"NETWORK_ERROR", errorMsg, none⟩ },
        toasts := (toastError idGen "Erreur réseau" (some errorMsg)
          none s1.toasts).2.1 }

/-- Model of `projectsStore.createProject`: returns the boolean result and the
new state.  On `response.success && response.data` the new entity is appended
to the collection and a success toast is queued; otherwise an error toast is
queued and the state is otherwise unchanged.  The loading state is never
touched by this action. -/
def createProject (idGen : String) (outcome : Except Unit (ApiResponse Project))
    (s : ProjectsState) : Bool × ProjectsState :=
  match outcome with
  | .ok response =>
    match response.success, response.data with
    | true, some p =>
      (true, { s with
        projects := s.projects ++ [p],
        toasts := (toastSuccess idGen "Projet créé"
          (some "Le projet a été créé avec succès") none s.toasts).2.1 })
    | _, _ =>
      let errorMsg := jsStrOr (response.error.map ApiError.message)
        "Erreur lors de la création du projet"
      (false, { s with
        toasts := (toastError idGen "Erreur de création" (some errorMsg)
          none s.toasts).2.1 })
  | .error _ =>
    (false, { s with
      toasts := (toastError idGen "Erreur réseau"
        (some "Impossible de créer le projet") none s.toasts).2.1 })

/-- Model of `projectsStore.updateProject`: on `response.success &&
response.data` every collection entry whose `id` equals the argument is
replaced by the returned entity (`projects.map(project => project.id === id ?
response.data! : project)`) and a success toast is queued; otherwise an error
toast is queued and the collection is unchanged. -/
def updateProject (idGen : String) (id : Int) (outcome : Except Unit (ApiResponse Project))
    (s : ProjectsState) : Bool × ProjectsState :=
  match outcome with
  | .ok response =>
    match response.success, response.data with
    | true, some p =>
      (true, { s with
        projects := s.projects.map (fun project => if project.id = id then p else project),
        toasts := (toastSuccess idGen "Projet mis à jour"
          (some "Le projet a été mis à jour avec succès") none s.toasts).2.1 })
    | _, _ =>
      let errorMsg := jsStrOr (response.error.map ApiError.message)
        "Erreur lors de la mise à jour du projet"
      (false, { s with
        toasts := (toastError idGen "Erreur de mise à jour" (some errorMsg)
          none s.toasts).2.1 })
  | .error _ =>
    (false, { s with
      toasts := (toastError idGen "Erreur réseau"
        (some "Impossible de mettre à jour le projet") none s.toasts).2.1 })

/-- A concrete project used in witnesses, mirroring the entity of the spec's
create scenario (`id: 5`). -/
def sampleNewProject : Project :=
  ⟨5, "X", "d", none, ["Rust"], none, none, none, "Web", false, "2024"⟩

/-- A concrete prior state with one project, used in witnesses. -/
def sampleCreateState : ProjectsState :=
  ⟨[⟨1, "t", "d", none, [], none, none, none, "Web", true, "2024"⟩],
    ⟨false, none⟩, []⟩

/-- The `Skill` entity of `src/frontend/src/lib/types/index.ts`. -/
structure Skill where
  id : Int
  name : String
  category : String
  level : Int
  years_experience : Option Int
  description : Option String
deriving DecidableEq, Repr

/-- Three-way lexicographic comparison of lists over a linear order, with the
JavaScript comparator convention: negative, zero or positive. -/
def cmp3 {α : Type} [LinearOrder α] : List α → List α → Int
  | [], [] => 0
  | [], _ :: _ => -1
  | _ :: _, [] => 1
  | a :: as, b :: bs => if a = b then cmp3 as bs else if a < b then -1 else 1

/-- Lexicographic chaining of two three-way comparison results. -/
def chain3 (p q : Int) : Int := if p = 0 then q else p

/-- The case-insensitive primary sort key of a string: its characters mapped
to the code points of their lowercase forms. -/
def lowerKey (s : String) : List Nat :=
  s.data.map (fun c => c.toLower.toNat)

/-- The case tiebreak key of a string: which of its characters are uppercase
(`false`, i.e. lowercase, collates first). -/
def caseKey (s : String) : List Bool :=
  s.data.map Char.isUpper

/-- Model of JavaScript `a.localeCompare(b)` under the default locale (ICU
root collation), restricted to the ASCII strings this code base sorts:
a case-insensitive primary comparison of the lowercased strings, and, when the
lowercased strings coincide, a tiebreak at the first position whose case
differs, lowercase collating before uppercase.  In particular this order is
NOT the case-sensitive code-unit order: `'a'.localeCompare('B')` is negative
although `'B' < 'a'` holds for code units. -/
def jsLocaleCompare (a b : String) : Int :=
  chain3 (cmp3 (lowerKey a) (lowerKey b)) (cmp3 (caseKey a) (caseKey b))

/-- The sort comparator of `skillsByCategory` in the skills store:
`if (a.level !== b.level) return b.level - a.level; return
a.name.localeCompare(b.name)`. -/
def skillCmp (a b : Skill) : Int :=
  if a.level ≠ b.level then b.level - a.level else jsLocaleCompare a.name b.name

/-- The nonstrict order induced by the comparator: `a` may come before `b`
exactly when the comparator is nonpositive. -/
def skillSortLE (a b : Skill) : Prop := skillCmp a b ≤ 0

instance : DecidableRel skillSortLE := fun a b => Int.decLe (skillCmp a b) 0

/-- Model of `skillsByCategory` in the skills store for one category key: the
skills carrying that category label, in original order, sorted stably by the
comparator (JavaScript `Array.prototype.sort` is stable, so it is modelled by
a stable insertion sort with respect to the comparator's nonstrict order). -/
def skillsByCategory (skills : List Skill) (category : String) : List Skill :=
  List.insertionSort skillSortLE (skills.filter (fun sk => sk.category == category))

/-- The code-unit key of a string: its characters as code points, whose
lexicographic comparison is the case-sensitive lexicographic string order. -/
def codeKey (s : String) : List Nat :=
  s.data.map Char.toNat

/-- The tie-break order claimed by the spec, stated by its words for
refinement comparison with `skillsByCategory`: level descending, ties broken
by name ascending in case-sensitive lexicographic (code-unit) order. -/
def skillLeSpec (a b : Skill) : Prop :=
  b.level < a.level ∨ (a.level = b.level ∧ cmp3 (codeKey a.name) (codeKey b.name) ≤ 0)

instance : DecidableRel skillLeSpec := fun a b => by
  unfold skillLeSpec
  exact inferInstance

/-- The grouped-by-category view as the spec's words describe it, for
refinement comparison with `skillsByCategory`. -/
def skillsByCategorySpec (skills : List Skill) (category : String) : List Skill :=
  List.insertionSort skillLeSpec (skills.filter (fun sk => sk.category == category))

/-- Two same-level, same-category skills whose names differ only in case. -/
def exSkills : List Skill :=
  [⟨1, "B", "X", 3, none, none⟩, ⟨2, "a", "X", 3, none, none⟩]

/-- Running a sequence of `toastStore.add` calls against the queue: each call
carries the identifier drawn from the random source and the caller's options. -/
def runToasts : List (String × ToastOptions) → List Toast → List Toast
  | [], ts => ts
  | (id, o) :: rest, ts => runToasts rest (toastAdd id o ts).2.1

/-- A `ToastOptions` value with every optional field absent. -/
def stdOpts : ToastOptions := ⟨none, "t", none, none, none⟩

/-- C3: the API client's `request` never throws (it is a total function into
the normalized result shape), and on each class of input returns the stated
normalized value: `NETWORK_ERROR` when `fetch` throws or the body fails to
parse, `HTTP_ERROR` on a non-2xx response without a structured error body, the
server-supplied structured error passed through unchanged when present, and
the parsed body itself on a 2xx response.  The listed cases cover every
possible input of `request`. -/
theorem C3_request_never_throws (T : Type) (status : Nat) (statusText : String)
    (b : ApiResponse T) (e : ApiError) :
    request T FetchOutcome.fetchThrow = ⟨false, none, some networkError⟩
    ∧ request T (.response true status statusText none) = ⟨false, none, some networkError⟩
    ∧ request T (.response false status statusText none) = ⟨false, none, some networkError⟩
    ∧ request T (.response false status statusText (some { b with error := none }))
        = ⟨false, none, some (httpErrorFor status statusText)⟩
    ∧ request T (.response false status statusText (some { b with error := some e }))
        = ⟨false, none, some e⟩
    ∧ request T (.response true status statusText (some b)) = b
    ∧ networkError.code = "NETWORK_ERROR"
    ∧ (httpErrorFor status statusText).code = "HTTP_ERROR" := by
  refine ⟨rfl, rfl, rfl, rfl, rfl, rfl, rfl, rfl⟩

/-- C5: the level-to-label mapping is total and clamped: levels 1 through 5
map to the five labels, and every integer level at most 0 or greater than 5
falls back to the level-1 label. -/
theorem C5_skill_level_display :
    getSkillLevelDisplay 1 = "Débutant"
    ∧ getSkillLevelDisplay 2 = "Intermédiaire"
    ∧ getSkillLevelDisplay 3 = "Confirmé"
    ∧ getSkillLevelDisplay 4 = "Expert"
    ∧ getSkillLevelDisplay 5 = "Maître"
    ∧ ∀ level : Int, (level ≤ 0 ∨ 5 < level) →
        getSkillLevelDisplay level = "Débutant" := by
  refine ⟨rfl, rfl, rfl, rfl, rfl, ?_⟩
  intro level h
  unfold getSkillLevelDisplay jsIndex
  rcases h with h | h
  · rw [if_pos (by omega)]
    rfl
  · rw [if_neg (by omega)]
    have h5 : (5 : Nat) ≤ (level - 1).toNat := by omega
    rw [List.get?_eq_none.mpr (by simpa [skillLevels] using h5)]
    rfl

/-- Witness for C5 at the spec's boundary inputs 0 and 6. -/
theorem C5_skill_level_display_witness :
    getSkillLevelDisplay 0 = "Débutant" ∧ getSkillLevelDisplay 6 = "Débutant" :=
  ⟨C5_skill_level_display.2.2.2.2.2 0 (Or.inl (by decide)),
   C5_skill_level_display.2.2.2.2.2 6 (Or.inr (by decide))⟩

/-- C10, counterexample to the claim as stated: `add` CAN produce a
non-expiring toast through its duration option — a negative duration such as
`-1` is truthy in JavaScript, so it is stored as given, and since it is not
greater than 0 no auto-dismiss timer is scheduled. -/
theorem C10_counterexample :
    (toastAdd "id1"
      { type := none, title := "t", message := none
        duration := some (-1), dismissible := none } []).2.2 = false
    ∧ ((toastAdd "id1"
      { type := none, title := "t", message := none
        duration := some (-1), dismissible := none } []).2.1.map Toast.duration)
        = [-1] := by
  exact ⟨rfl, rfl⟩

/-- C10, amended: for every `add` call whose duration option is absent or the
explicit falsy value 0, the stored toast's duration is the default 5000 and an
auto-dismiss timer is scheduled; the explicit 0 is not distinguished from
omission because the default is applied to every falsy duration value. -/
theorem C10_toast_default_duration (id : String) (options : ToastOptions)
    (ts : List Toast)
    (h : options.duration = none ∨ options.duration = some 0) :
    (mkToast id options).duration = 5000 ∧ (toastAdd id options ts).2.2 = true := by
  have hd : jsNumOr options.duration 5000 = 5000 := by
    rcases h with h | h <;> simp [jsNumOr, h]
  refine ⟨hd, ?_⟩
  simp [toastAdd, mkToast, hd]

/-- Witness for C10 at the explicit-zero input. -/
theorem C10_toast_default_duration_witness :
    (mkToast "id2"
      { type := none, title := "t", message := none
        duration := some 0, dismissible := none }).duration = 5000
    ∧ (toastAdd "id2"
      { type := none, title := "t", message := none
        duration := some 0, dismissible := none } []).2.2 = true :=
  C10_toast_default_duration "id2"
    { type := none, title := "t", message := none
      duration := some 0, dismissible := none } [] (Or.inr rfl)

/-- C7: message validation accepts trimmed lengths exactly 10 and exactly 1000
and rejects trimmed lengths 9 and 1001, and the email pattern accepts
`a@b.c` and rejects `a@b`. -/
theorem C7_contact_validation :
    (∀ s : String, (jsTrim s).length = 10 → validateField .message s = none)
    ∧ (∀ s : String, (jsTrim s).length = 1000 → validateField .message s = none)
    ∧ (∀ s : String, (jsTrim s).length = 9 → (validateField .message s).isSome)
    ∧ (∀ s : String, (jsTrim s).length = 1001 → (validateField .message s).isSome)
    ∧ validateField .email "a@b.c" = none
    ∧ (validateField .email "a@b").isSome := by
  have hne : ∀ (s : String) (n : Nat), (jsTrim s).length = n → n ≠ 0 →
      ¬ jsTrim s = "" := by
    intro s n hlen hn h
    rw [h] at hlen
    exact hn hlen.symm
  refine ⟨?_, ?_, ?_, ?_, by decide, by decide⟩
  · intro s h
    simp only [validateField, if_neg (hne s 10 h (by decide)), h]
    rfl
  · intro s h
    simp only [validateField, if_neg (hne s 1000 h (by decide)), h]
    rfl
  · intro s h
    simp only [validateField, if_neg (hne s 9 h (by decide)), h]
    rfl
  · intro s h
    simp only [validateField, if_neg (hne s 1001 h (by decide)), h]
    rfl

/-- Witness for C7 at concrete strings of trimmed lengths 10, 1000, 9, 1001. -/
theorem C7_contact_validation_witness :
    validateField .message "0123456789" = none
    ∧ validateField .message ⟨List.replicate 1000 'a'⟩ = none
    ∧ (validateField .message "012345678").isSome
    ∧ (validateField .message ⟨List.replicate 1001 'a'⟩).isSome :=
  ⟨C7_contact_validation.1 "0123456789" (by decide),
   C7_contact_validation.2.1 ⟨List.replicate 1000 'a'⟩ (by decide),
   C7_contact_validation.2.2.1 "012345678" (by decide),
   C7_contact_validation.2.2.2.1 ⟨List.replicate 1001 'a'⟩ (by decide)⟩

/-- C1: every failed `loadProjects` call (result with `success: false`, or a
thrown transport error) leaves the projects collection unchanged, ends with
`isLoading` false and a non-null error that equals the server-supplied error
object when one is present, and queues exactly one error-type toast. -/
theorem C1_loadProjects_failure (idGen : String) (s : ProjectsState)
    (outcome : Except Unit (ApiResponse (List Project)))
    (h : outcome = .error () ∨ ∃ r, outcome = .ok r ∧ r.success = false) :
    (loadProjects idGen outcome s).projects = s.projects
    ∧ (loadProjects idGen outcome s).loading.isLoading = false
    ∧ (loadProjects idGen outcome s).loading.error ≠ none
    ∧ (∀ r e, outcome = .ok r → r.error = some e →
        (loadProjects idGen outcome s).loading.error = some e)
    ∧ ∃ t, (loadProjects idGen outcome s).toasts = s.toasts ++ [t]
        ∧ t.type = ToastType.error := by
  rcases h with h | ⟨r, h, hs⟩
  · subst h
    refine ⟨rfl, rfl, by simp [loadProjects], by intro r e hr; exact absurd hr (by simp), ?_⟩
    exact ⟨_, rfl, rfl⟩
  · subst h
    obtain ⟨rs, rd, re⟩ := r
    simp only at hs
    subst hs
    refine ⟨rfl, rfl, by simp [loadProjects], ?_, ⟨_, rfl, rfl⟩⟩
    intro r' e hr' he
    cases hr'
    simp only at he
    subst he
    rfl

/-- Witness for C1 at the spec's scenario: a response
`{success: false, error: {code: 'SERVER_ERROR', message: 'Internal server
error'}}` leaves the collection unchanged and records exactly that error. -/
theorem C1_loadProjects_failure_witness :
    (loadProjects "id3"
      (.ok ⟨false, none, some ⟨"SERVER_ERROR", "Internal server error", none⟩⟩)
      ⟨[], ⟨false, none⟩, []⟩).projects = []
    ∧ (loadProjects "id3"
      (.ok ⟨false, none, some ⟨"SERVER_ERROR", "Internal server error", none⟩⟩)
      ⟨[], ⟨false, none⟩, []⟩).loading.error
        = some ⟨"SERVER_ERROR", "Internal server error", none⟩ :=
  ⟨(C1_loadProjects_failure "id3" ⟨[], ⟨false, none⟩, []⟩ _
      (Or.inr ⟨_, rfl, rfl⟩)).1,
   (C1_loadProjects_failure "id3" ⟨[], ⟨false, none⟩, []⟩ _
      (Or.inr ⟨_, rfl, rfl⟩)).2.2.2.1 _ _ rfl rfl⟩

/-- C2: every successful `loadProjects` call replaces the collection with
exactly the server-returned collection and ends with `isLoading` false. -/
theorem C2_loadProjects_success (idGen : String) (s : ProjectsState)
    (r : ApiResponse (List Project)) (l : List Project)
    (hs : r.success = true) (hd : r.data = some l) :
    (loadProjects idGen (.ok r) s).projects = l
    ∧ (loadProjects idGen (.ok r) s).loading.isLoading = false := by
  obtain ⟨rs, rd, re⟩ := r
  simp only at hs hd
  subst hs
  subst hd
  exact ⟨rfl, rfl⟩

/-- Witness for C2: a successful response replaces a nonempty prior
collection wholesale. -/
theorem C2_loadProjects_success_witness :
    (loadProjects "id4" (.ok ⟨true, some [], none⟩)
      ⟨[⟨1, "t", "d", none, [], none, none, none, "Web", true, "2024"⟩],
        ⟨false, none⟩, []⟩).projects = []
    ∧ (loadProjects "id4" (.ok ⟨true, some [], none⟩)
      ⟨[⟨1, "t", "d", none, [], none, none, none, "Web", true, "2024"⟩],
        ⟨false, none⟩, []⟩).loading.isLoading = false :=
  C2_loadProjects_success "id4"
    ⟨[⟨1, "t", "d", none, [], none, none, none, "Web", true, "2024"⟩],
      ⟨false, none⟩, []⟩ ⟨true, some [], none⟩ [] rfl rfl

/-- C4: a successful `createProject` call appends the returned entity after
all prior entries (preserving them in order), so it appears exactly once when
it is fresh, returns `true`, and queues exactly one success-type toast; a
failed call leaves the collection unchanged and returns `false`. -/
theorem C4_createProject (idGen : String) (s : ProjectsState)
    (outcome : Except Unit (ApiResponse Project)) :
    (∀ r p, outcome = .ok r → r.success = true → r.data = some p →
      (createProject idGen outcome s).1 = true
      ∧ (createProject idGen outcome s).2.projects = s.projects ++ [p]
      ∧ (p ∉ s.projects → (createProject idGen outcome s).2.projects.count p = 1)
      ∧ ∃ t, (createProject idGen outcome s).2.toasts = s.toasts ++ [t]
          ∧ t.type = ToastType.success)
    ∧ ((outcome = .error () ∨ ∃ r, outcome = .ok r ∧ r.success = false) →
      (createProject idGen outcome s).1 = false
      ∧ (createProject idGen outcome s).2.projects = s.projects) := by
  constructor
  · intro r p hr hs hd
    subst hr
    obtain ⟨rs, rd, re⟩ := r
    simp only at hs hd
    subst hs
    subst hd
    refine ⟨rfl, rfl, ?_, ⟨_, rfl, rfl⟩⟩
    intro hp
    simp [createProject, List.count_append, List.count_eq_zero.mpr hp]
  · intro h
    rcases h with h | ⟨r, h, hs⟩
    · subst h
      exact ⟨rfl, rfl⟩
    · subst h
      obtain ⟨rs, rd, re⟩ := r
      simp only at hs
      subst hs
      exact ⟨rfl, rfl⟩

/-- Witness for C4: a fresh entity created over a singleton collection is
appended and counted once; a failed call changes nothing. -/
theorem C4_createProject_witness :
    ((createProject "id5" (.ok ⟨true, some sampleNewProject, none⟩)
        sampleCreateState).2.projects
      = sampleCreateState.projects ++ [sampleNewProject]
    ∧ (createProject "id5" (.ok ⟨true, some sampleNewProject, none⟩)
        sampleCreateState).2.projects.count sampleNewProject = 1)
    ∧ (createProject "id5" (.ok ⟨false, none, none⟩)
        sampleCreateState).2.projects = sampleCreateState.projects :=
  ⟨⟨((C4_createProject "id5" sampleCreateState _).1 _ _ rfl rfl rfl).2.1,
    ((C4_createProject "id5" sampleCreateState _).1 _ _ rfl rfl rfl).2.2.1
      (by decide)⟩,
   ((C4_createProject "id5" sampleCreateState _).2 (Or.inr ⟨_, rfl, rfl⟩)).2⟩

/-- C9: a successful `updateProject` call preserves the collection's length,
replaces exactly the entries whose `id` matches by the server-returned entity,
leaves every entry with a different `id` unchanged at its position, and is a
silent no-op on the collection when no entry carries the `id`. -/
theorem C9_updateProject_frame (idGen : String) (pid : Int) (s : ProjectsState)
    (r : ApiResponse Project) (p : Project)
    (hs : r.success = true) (hd : r.data = some p) :
    (updateProject idGen pid (.ok r) s).2.projects.length = s.projects.length
    ∧ (∀ (i : Nat) (proj : Project), s.projects[i]? = some proj → proj.id ≠ pid →
        (updateProject idGen pid (.ok r) s).2.projects[i]? = some proj)
    ∧ (∀ (i : Nat) (proj : Project), s.projects[i]? = some proj → proj.id = pid →
        (updateProject idGen pid (.ok r) s).2.projects[i]? = some p)
    ∧ ((∀ proj ∈ s.projects, proj.id ≠ pid) →
        (updateProject idGen pid (.ok r) s).2.projects = s.projects) := by
  obtain ⟨rs, rd, re⟩ := r
  simp only at hs hd
  subst hs
  subst hd
  refine ⟨by simp [updateProject], ?_, ?_, ?_⟩
  · intro i proj hi hne
    simp [updateProject, List.getElem?_map, hi, if_neg hne]
  · intro i proj hi heq
    simp [updateProject, List.getElem?_map, hi, if_pos heq]
  · intro hall
    simp only [updateProject]
    exact (List.map_congr_left fun proj hm => if_neg (hall proj hm)).trans
      (List.map_id' s.projects)

theorem cmp3_self {α : Type} [LinearOrder α] : ∀ x : List α, cmp3 x x = 0
  | [] => rfl
  | a :: as => by simp [cmp3, cmp3_self as]

theorem cmp3_eq_zero {α : Type} [LinearOrder α] :
    ∀ {x y : List α}, cmp3 x y = 0 → x = y
  | [], [], _ => rfl
  | [], _ :: _, h => by simp [cmp3] at h
  | _ :: _, [], h => by simp [cmp3] at h
  | a :: as, b :: bs, h => by
    by_cases hab : a = b
    · subst hab
      simp only [cmp3, if_pos rfl] at h
      exact congrArg (List.cons a) (cmp3_eq_zero h)
    · simp only [cmp3, if_neg hab] at h
      split_ifs at h
      all_goals omega

theorem cmp3_antisymm {α : Type} [LinearOrder α] :
    ∀ x y : List α, cmp3 y x = -cmp3 x y
  | [], [] => by simp [cmp3]
  | [], _ :: _ => by simp [cmp3]
  | _ :: _, [] => by simp [cmp3]
  | a :: as, b :: bs => by
    by_cases hab : a = b
    · subst hab
      simp [cmp3, cmp3_antisymm as bs]
    · have hba : ¬ b = a := fun h => hab h.symm
      rcases lt_or_gt_of_ne hab with h | h
      · rw [cmp3, cmp3, if_neg hab, if_neg hba, if_pos h, if_neg (not_lt.mpr h.le)]
        decide
      · rw [cmp3, cmp3, if_neg hab, if_neg hba, if_neg (not_lt.mpr h.le), if_pos h]

theorem cmp3_le_trans {α : Type} [LinearOrder α] :
    ∀ x y z : List α, cmp3 x y ≤ 0 → cmp3 y z ≤ 0 → cmp3 x z ≤ 0
  | [], _, z, _, _ => by cases z <;> simp [cmp3]
  | _ :: _, [], _, h1, _ => by simp [cmp3] at h1
  | _ :: _, _ :: _, [], _, h2 => by simp [cmp3] at h2
  | a :: as, b :: bs, c :: cs, h1, h2 => by
    by_cases hab : a = b <;> by_cases hbc : b = c
    · subst hab
      subst hbc
      simp only [cmp3, if_pos rfl] at h1 h2 ⊢
      exact cmp3_le_trans as bs cs h1 h2
    · subst hab
      have hlt : a < c := by
        simp only [cmp3, if_neg hbc] at h2
        split_ifs at h2 with h
        · exact h
        · omega
      rw [cmp3, if_neg (ne_of_lt hlt), if_pos hlt]
      decide
    · subst hbc
      have hlt : a < b := by
        simp only [cmp3, if_neg hab] at h1
        split_ifs at h1 with h
        · exact h
        · omega
      rw [cmp3, if_neg (ne_of_lt hlt), if_pos hlt]
      decide
    · have hlt1 : a < b := by
        simp only [cmp3, if_neg hab] at h1
        split_ifs at h1 with h
        · exact h
        · omega
      have hlt2 : b < c := by
        simp only [cmp3, if_neg hbc] at h2
        split_ifs at h2 with h
        · exact h
        · omega
      have hlt : a < c := lt_trans hlt1 hlt2
      rw [cmp3, if_neg (ne_of_lt hlt), if_pos hlt]
      decide

theorem jsLocaleCompare_le_total (a b : String) :
    jsLocaleCompare a b ≤ 0 ∨ jsLocaleCompare b a ≤ 0 := by
  unfold jsLocaleCompare chain3
  rw [cmp3_antisymm (lowerKey a) (lowerKey b), cmp3_antisymm (caseKey a) (caseKey b)]
  split_ifs <;> omega

theorem jsLocaleCompare_le_trans (a b c : String)
    (h1 : jsLocaleCompare a b ≤ 0) (h2 : jsLocaleCompare b c ≤ 0) :
    jsLocaleCompare a c ≤ 0 := by
  unfold jsLocaleCompare chain3 at h1 h2 ⊢
  by_cases p1 : cmp3 (lowerKey a) (lowerKey b) = 0
  · have e1 : lowerKey a = lowerKey b := cmp3_eq_zero p1
    rw [if_pos p1] at h1
    rw [e1]
    by_cases p2 : cmp3 (lowerKey b) (lowerKey c) = 0
    · have e2 : lowerKey b = lowerKey c := cmp3_eq_zero p2
      rw [if_pos p2] at h2
      rw [if_pos (e2 ▸ cmp3_self (lowerKey b))]
      exact cmp3_le_trans _ _ _ h1 h2
    · rw [if_neg p2] at h2 ⊢
      exact h2
  · rw [if_neg p1] at h1
    by_cases p2 : cmp3 (lowerKey b) (lowerKey c) = 0
    · have e2 : lowerKey b = lowerKey c := cmp3_eq_zero p2
      rw [← e2]
      rw [if_neg p1]
      exact h1
    · rw [if_neg p2] at h2
      by_cases p3 : cmp3 (lowerKey a) (lowerKey c) = 0
      · exfalso
        have e3 : lowerKey a = lowerKey c := cmp3_eq_zero p3
        rw [e3] at h1
        rw [cmp3_antisymm (lowerKey b) (lowerKey c)] at h1
        omega
      · rw [if_neg p3]
        exact cmp3_le_trans _ _ _ h1 h2

theorem skillSortLE_trans : ∀ a b c : Skill,
    skillSortLE a b → skillSortLE b c → skillSortLE a c := by
    intro a b c h1 h2
    unfold skillSortLE skillCmp at h1 h2 ⊢
    by_cases e1 : a.level = b.level <;> by_cases e2 : b.level = c.level
    · rw [if_neg (by omega : ¬ a.level ≠ b.level)] at h1
      rw [if_neg (by omega : ¬ b.level ≠ c.level)] at h2
      rw [if_neg (by omega : ¬ a.level ≠ c.level)]
      exact jsLocaleCompare_le_trans _ _ _ h1 h2
    · rw [if_pos (by omega : b.level ≠ c.level)] at h2
      rw [if_pos (by omega : a.level ≠ c.level)]
      omega
    · rw [if_pos (by omega : a.level ≠ b.level)] at h1
      rw [if_pos (by omega : a.level ≠ c.level)]
      omega
    · rw [if_pos (by omega : a.level ≠ b.level)] at h1
      rw [if_pos (by omega : b.level ≠ c.level)] at h2
      by_cases e3 : a.level = c.level
      · omega
      · rw [if_pos (by omega : a.level ≠ c.level)]
        omega

theorem skillSortLE_total : ∀ a b : Skill, skillSortLE a b ∨ skillSortLE b a := by
    intro a b
    unfold skillSortLE skillCmp
    by_cases e : a.level = b.level
    · rw [if_neg (by omega : ¬ a.level ≠ b.level),
        if_neg (by omega : ¬ b.level ≠ a.level)]
      exact jsLocaleCompare_le_total a.name b.name
    · rw [if_pos (by omega : a.level ≠ b.level),
        if_pos (by omega : b.level ≠ a.level)]
      omega

theorem skillSortLE_iff (a b : Skill) :
    skillSortLE a b ↔
      (b.level < a.level ∨ (a.level = b.level ∧ jsLocaleCompare a.name b.name ≤ 0)) := by
  unfold skillSortLE skillCmp
  by_cases e : a.level = b.level
  · rw [if_neg (by omega : ¬ a.level ≠ b.level)]
    constructor
    · intro h
      exact Or.inr ⟨e, h⟩
    · intro h
      rcases h with h | h
      · omega
      · exact h.2
  · rw [if_pos (by omega : a.level ≠ b.level)]
    constructor
    · intro h
      exact Or.inl (by omega)
    · intro h
      rcases h with h | h
      · omega
      · exact absurd h.1 e

/-- C6, counterexample to the claim as stated: on two same-level skills named
`B` and `a`, the code's grouped view (tie-break by `localeCompare`) lists `a`
before `B`, while the claimed case-sensitive lexicographic tie-break would
list `B` (code point 66) before `a` (code point 97). -/
theorem C6_counterexample :
    (skillsByCategory exSkills "X").map Skill.name = ["a", "B"]
    ∧ (skillsByCategorySpec exSkills "X").map Skill.name = ["B", "a"]
    ∧ skillsByCategory exSkills "X" ≠ skillsByCategorySpec exSkills "X" := by
  decide

/-- C6, amended: the grouped-by-category view maps each category label to
exactly the skills bearing that label, and within each group the list is
sorted by level descending with ties broken by name ascending in the default
locale order of `localeCompare` (case-insensitive primary comparison,
lowercase first on case-only differences) — not in case-sensitive
lexicographic order. -/
theorem C6_skills_by_category (skills : List Skill) (c : String) :
    (skillsByCategory skills c).Perm (skills.filter (fun sk => sk.category == c))
    ∧ (∀ sk ∈ skillsByCategory skills c, sk.category = c)
    ∧ (skillsByCategory skills c).Pairwise (fun a b =>
        b.level < a.level ∨ (a.level = b.level ∧ jsLocaleCompare a.name b.name ≤ 0)) := by
  refine ⟨List.perm_insertionSort skillSortLE _, ?_, ?_⟩
  · intro sk hm
    have hm' : sk ∈ skills.filter (fun sk => sk.category == c) :=
      (List.perm_insertionSort skillSortLE _).mem_iff.mp hm
    have := (List.mem_filter.mp hm').2
    exact eq_of_beq this
  · haveI : IsTotal Skill skillSortLE := ⟨skillSortLE_total⟩
    haveI : IsTrans Skill skillSortLE := ⟨skillSortLE_trans⟩
    have hs := List.sorted_insertionSort skillSortLE
      (skills.filter (fun sk => sk.category == c))
    exact List.Pairwise.imp (fun h => (skillSortLE_iff _ _).mp h) hs

theorem runToasts_ids : ∀ (calls : List (String × ToastOptions)) (ts : List Toast),
    (runToasts calls ts).map Toast.id = ts.map Toast.id ++ calls.map Prod.fst
  | [], ts => by simp [runToasts]
  | (id, o) :: rest, ts => by
    simp [runToasts, toastAdd, runToasts_ids rest, mkToast]

theorem toastDismiss_not_mem (q : List Toast) (id : String)
    (h : id ∉ q.map Toast.id) : toastDismiss id q = q := by
  unfold toastDismiss
  apply List.filter_eq_self.mpr
  intro t ht
  have : t.id ≠ id := fun he => h (he ▸ List.mem_map_of_mem Toast.id ht)
  simpa using this

theorem toastDismiss_mem_nodup : ∀ (q : List Toast) (id : String),
    (q.map Toast.id).Nodup → id ∈ q.map Toast.id →
    (toastDismiss id q).length + 1 = q.length
  | [], id, _, hin => by simp at hin
  | t :: rest, id, hnd, hin => by
    rw [List.map_cons, List.nodup_cons] at hnd
    rcases List.mem_cons.mp hin with h | h
    · subst h
      unfold toastDismiss
      rw [List.filter_cons_of_neg (by simp)]
      have : toastDismiss t.id rest = rest := toastDismiss_not_mem rest t.id hnd.1
      unfold toastDismiss at this
      rw [this]
      simp
    · have hne : t.id ≠ id := by
        intro he
        exact hnd.1 (he ▸ h)
      unfold toastDismiss
      rw [List.filter_cons_of_pos (by simpa using hne)]
      have := toastDismiss_mem_nodup rest id hnd.2 h
      unfold toastDismiss at this
      simp only [List.length_cons]
      omega

/-- C8, counterexample to the claim as stated: the identifier of a toast is
whatever `Math.random().toString(36).substr(2, 9)` yields, and nothing in the
code prevents two draws from yielding the same string; with two equal draws,
`add` returns the same id twice, the reachable queue has duplicate ids, and
`dismiss` on that id removes two entries rather than exactly one. -/
theorem C8_counterexample :
    (toastAdd "dup" stdOpts (toastAdd "dup" stdOpts []).2.1).1
      = (toastAdd "dup" stdOpts []).1
    ∧ ¬ ((toastAdd "dup" stdOpts (toastAdd "dup" stdOpts []).2.1).2.1.map Toast.id).Nodup
    ∧ (toastDismiss "dup"
        (toastAdd "dup" stdOpts (toastAdd "dup" stdOpts []).2.1).2.1).length = 0
    ∧ (toastAdd "dup" stdOpts (toastAdd "dup" stdOpts []).2.1).2.1.length = 2 := by
  decide

/-- C8, amended: `add` returns the identifier drawn from the random source,
so ids are unique only as far as the draws are: for every session whose draws
are pairwise distinct, the queue's ids are pairwise distinct, `dismiss(id)`
removes exactly one entry when `id` is present (and keeps every other entry),
and is a no-op when `id` is absent.  `dismiss` is a total function: it never
throws. -/
theorem C8_toast_ids (calls : List (String × ToastOptions))
    (h : (calls.map Prod.fst).Nodup) :
    ((runToasts calls []).map Toast.id).Nodup
    ∧ (∀ id, id ∈ (runToasts calls []).map Toast.id →
        (toastDismiss id (runToasts calls [])).length + 1 = (runToasts calls []).length
        ∧ ∀ t ∈ runToasts calls [], t.id ≠ id → t ∈ toastDismiss id (runToasts calls []))
    ∧ (∀ id, id ∉ (runToasts calls []).map Toast.id →
        toastDismiss id (runToasts calls []) = runToasts calls []) := by
  have hids : (runToasts calls []).map Toast.id = calls.map Prod.fst := by
    simpa using runToasts_ids calls []
  have hnd : ((runToasts calls []).map Toast.id).Nodup := by
    rw [hids]
    exact h
  refine ⟨hnd, ?_, ?_⟩
  · intro id hin
    refine ⟨toastDismiss_mem_nodup _ id hnd hin, ?_⟩
    intro t ht hne
    unfold toastDismiss
    exact List.mem_filter.mpr ⟨ht, by simpa using hne⟩
  · intro id hout
    exact toastDismiss_not_mem _ id hout

/-- Witness for C8 at a two-call session with distinct draws. -/
theorem C8_toast_ids_witness :
    ((runToasts [("idA", stdOpts), ("idB", stdOpts)] []).map Toast.id).Nodup
    ∧ (toastDismiss "idA" (runToasts [("idA", stdOpts), ("idB", stdOpts)] [])).length + 1
        = (runToasts [("idA", stdOpts), ("idB", stdOpts)] []).length :=
  ⟨(C8_toast_ids [("idA", stdOpts), ("idB", stdOpts)] (by decide)).1,
   ((C8_toast_ids [("idA", stdOpts), ("idB", stdOpts)] (by decide)).2.1 "idA"
      (by decide)).1⟩

/-- Witness for C9: updating id 1 over a singleton collection with that id
replaces its entry and preserves the length. -/
theorem C9_updateProject_frame_witness :
    (updateProject "id6" 1 (.ok ⟨true, some sampleNewProject, none⟩)
        sampleCreateState).2.projects.length = sampleCreateState.projects.length
    ∧ (updateProject "id6" 1 (.ok ⟨true, some sampleNewProject, none⟩)
        sampleCreateState).2.projects[0]? = some sampleNewProject :=
  ⟨(C9_updateProject_frame "id6" 1 sampleCreateState
      ⟨true, some sampleNewProject, none⟩ sampleNewProject rfl rfl).1,
   (C9_updateProject_frame "id6" 1 sampleCreateState
      ⟨true, some sampleNewProject, none⟩ sampleNewProject rfl rfl).2.2.1 0
      ⟨1, "t", "d", none, [], none, none, none, "Web", true, "2024"⟩ rfl rfl⟩
